import Mathlib

/-!
Shallow embedding of the annotation and compositing engine of
ImageScreenshotAnnotate (src/app.js).  The file models the refactored
revision's state and operations (sanitizeInput, stopDrawing,
applyBlurEffect, redrawCanvas, undo, clearAnnotations, submitTextModal,
finishAreaSelection) and, in namespace Rev2, the divergent parts of the
second revision shipped in the same source file.

Coordinates coming from pointer events are modelled as rationals (the
source works with JS doubles produced by exact scaling arithmetic);
canvas dimensions and stroke widths are naturals; a pixel buffer is a
total function from coordinates to RGBA values.  Vector-shape rendering
(arrow, rect, circle, highlight, text) happens through opaque-to-us
canvas stroke and fill primitives, so theorems are stated for an
arbitrary shape renderer parameter.
-/

/-- One RGBA pixel: the four channel values of an ImageData entry. -/
structure RGBA where
  r : Nat
  g : Nat
  b : Nat
  a : Nat
  deriving DecidableEq

/-- The transparent black pixel that clearRect leaves behind. -/
def clearPix : RGBA := ⟨0, 0, 0, 0⟩

/-- Canvas pixel buffer: the pixel stored at column i, row j. -/
abbrev Buffer := Nat → Nat → RGBA

/-- An ImageData object as captured by getImageData: its width, height
and pixel data. -/
structure Snapshot where
  width : Nat
  height : Nat
  data : Buffer

/-- The drawing tools selectable in the toolbar (state.currentTool). -/
inductive Tool where
  | arrow | rect | circle | highlight | blur | text
  deriving DecidableEq

/-- One committed entry of state.annotations.  The source stores plain
JS objects; the three record layouts that actually occur are the vector
shape record, the blur record (which in the refactored revision carries
originalImageData), and the text record. -/
inductive Ann where
  | shape (tool : Tool) (startX startY endX endY : ℚ) (color : String) (strokeWidth : Nat)
  | blur (startX startY endX endY : ℚ) (color : String) (strokeWidth : Nat)
      (originalImageData : Option Snapshot)
  | text (x y : ℚ) (content : String) (color : String) (fontSize : Nat)

/-- The mutable application state of the refactored revision, restricted
to the fields the annotation engine reads and writes. -/
structure EditorState where
  canvasW : Nat
  canvasH : Nat
  baseImage : Buffer
  annotations : List Ann
  buffer : Buffer
  currentTool : Tool
  currentColor : String
  strokeWidth : Nat

/-- sanitizeInput escapes one character the way assigning textContent and
reading back innerHTML does: the markup-active characters amp, lt and gt
become entities, every other character is kept. -/
def escapeCharL (c : Char) : List Char :=
  if c = '&' then "&amp;".toList
  else if c = '<' then "&lt;".toList
  else if c = '>' then "&gt;".toList
  else [c]

/-- sanitizeInput (app.js lines 67-71): the input, markup-escaped. -/
def sanitizeInput (s : String) : String :=
  String.mk (s.toList.flatMap escapeCharL)

/-- The starting offsets px = 0, p, 2p, ... visited by a loop
for (px = 0; px < len; px += p). -/
def blockStarts (p len : Nat) : List Nat :=
  (List.range ((len + p - 1) / p)).map (fun k => k * p)

/-- The inner pair of loops of applyBlurEffect for one block: sample the
pixel at the block's top-left corner (px, py), then overwrite every
pixel of the block, the block clipped to the sw-by-sh region. -/
def fillBlock (p sw sh px py : Nat) (img : Buffer) : Buffer :=
  let s := img px py
  fun i j =>
    if px ≤ i ∧ i < min (px + p) sw ∧ py ≤ j ∧ j < min (py + p) sh then s
    else img i j

/-- One iteration of the outer py loop of applyBlurEffect: the px loop
over all block columns of one block row. -/
def pixelateRow (p sw sh py : Nat) (img : Buffer) : Buffer :=
  (blockStarts p sw).foldl (fun acc px => fillBlock p sw sh px py acc) img

/-- The full double loop of applyBlurEffect over the extracted
sw-by-sh ImageData region, in local region coordinates. -/
def pixelateImage (p sw sh : Nat) (img : Buffer) : Buffer :=
  (blockStarts p sh).foldl (fun acc py => pixelateRow p sw sh py acc) img

/-- getImageData(sx, sy, _, _): the extracted region in local
coordinates. -/
def getSubImage (sx sy : Nat) (img : Buffer) : Buffer :=
  fun i j => img (sx + i) (sy + j)

/-- getImageData of the rectangle, pixelation of the extracted region,
putImageData of the result back at (sx, sy): pixels outside the
rectangle keep their old value. -/
def pixelateRect (p sx sy sw sh : Nat) (img : Buffer) : Buffer :=
  let region := pixelateImage p sw sh (getSubImage sx sy img)
  fun i j =>
    if sx ≤ i ∧ i < sx + sw ∧ sy ≤ j ∧ j < sy + sh then region (i - sx) (j - sy)
    else img i j

/-- The clamping arithmetic of applyBlurEffect (app.js lines 719-724):
safeX = max(0, floor(min(x, W - 1))), safeY likewise, then
safeWidth = floor(min(w, W - safeX)), safeHeight likewise; none when the
clipped size check safeWidth < 1 or safeHeight < 1 fires. -/
def safeRect (W H : Nat) (x y w h : ℚ) : Option (Nat × Nat × Nat × Nat) :=
  let sx : ℤ := max 0 ⌊min x ((W : ℚ) - 1)⌋
  let sy : ℤ := max 0 ⌊min y ((H : ℚ) - 1)⌋
  let sw : ℤ := ⌊min w ((W : ℚ) - (sx : ℚ))⌋
  let sh : ℤ := ⌊min h ((H : ℚ) - (sy : ℚ))⌋
  if sw < 1 ∨ sh < 1 then none
  else some (sx.toNat, sy.toNat, sw.toNat, sh.toNat)

/-- applyBlurEffect (app.js lines 715-753): early return when
width < 1 or height < 1, clamping, then block pixelation with
pixelSize = max(8, state.strokeWidth * 2).  strokeWidth here is the
current state.strokeWidth, which is also what the source reads at
line 727. -/
def applyBlurEffect (W H strokeWidth : Nat) (x y w h : ℚ) (img : Buffer) : Buffer :=
  if w < 1 ∨ h < 1 then img
  else
    match safeRect W H x y w h with
    | none => img
    | some (sx, sy, sw, sh) => pixelateRect (max 8 (strokeWidth * 2)) sx sy sw sh img

/-- ctx.clearRect(0, 0, W, H): every canvas pixel becomes transparent
black; nothing of the previous content survives anywhere on the
canvas. -/
def clearRect (_W _H : Nat) (_old : Buffer) : Buffer :=
  fun _ _ => clearPix

/-- ctx.drawImage(baseImage, 0, 0) onto the just-cleared canvas: the
base image's dimensions always equal the canvas dimensions (the canvas
is sized to the image at load), and source-over compositing onto a
fully transparent canvas reproduces the image's pixels exactly. -/
def drawImage (W H : Nat) (base : Buffer) (buf : Buffer) : Buffer :=
  fun i j => if i < W ∧ j < H then base i j else buf i j

/-- redrawCanvas (app.js lines 758-803): clear, draw the base image,
then replay every annotation in store order.  A blur annotation
re-applies applyBlurEffect over min/abs of its stored corners — note
that applyBlurEffect reads the CURRENT state.strokeWidth, not the
annotation's stored strokeWidth.  Every other annotation is drawn by
the canvas stroke/fill primitives, abstracted here as the renderer R. -/
def redrawCanvas (R : Ann → Buffer → Buffer) (W H : Nat) (base : Buffer)
    (anns : List Ann) (strokeWidth : Nat) (old : Buffer) : Buffer :=
  anns.foldl
    (fun buf a =>
      match a with
      | Ann.blur sx sy ex ey _ _ _ =>
          applyBlurEffect W H strokeWidth (min sx ex) (min sy ey)
            (|ex - sx|) (|ey - sy|) buf
      | _ => R a buf)
    (drawImage W H base (clearRect W H old))

/-- A renderer instance used for concrete scenarios whose stores contain
no vector or text annotation at replay time (the renderer argument is
then never consulted). -/
def idRenderer : Ann → Buffer → Buffer := fun _ b => b

/-- loadImageToEditor (app.js lines 481-496): size the canvas to the
image, draw it, remember it as baseImage, reset the store.  The tool
and style fields start from the initial application state. -/
def loadImageToEditor (W H : Nat) (base : Buffer) : EditorState :=
  { canvasW := W
    canvasH := H
    baseImage := base
    annotations := []
    buffer := drawImage W H base (clearRect W H (fun _ _ => clearPix))
    currentTool := Tool.arrow
    currentColor := "#FF4D4F"
    strokeWidth := 3 }

/-- selectTool (app.js lines 501-508). -/
def selectTool (s : EditorState) (t : Tool) : EditorState :=
  { s with currentTool := t }

/-- The stroke-width slider handler (app.js lines 132-134): it only
updates state.strokeWidth, no redraw happens. -/
def setStrokeWidth (s : EditorState) (n : Nat) : EditorState :=
  { s with strokeWidth := n }

/-- stopDrawing of the refactored revision (app.js lines 572-618), for
an active drag from (sx, sy) to (ex, ey).  For blur: when the drag
spans more than 1 px in both axes, push the annotation carrying the
full-canvas backup captured by startDrawing (tempBlurBackup, the buffer
as it was at drag start) and pixelate the min/abs rectangle; otherwise
do nothing.  For the vector tools the annotation is pushed
unconditionally and no pixel is touched at commit time.  The text tool
never reaches this path (startDrawing reset isDrawing). -/
def stopDrawing (s : EditorState) (sx sy ex ey : ℚ) : EditorState :=
  match s.currentTool with
  | Tool.blur =>
      if 1 < |ex - sx| ∧ 1 < |ey - sy| then
        { s with
            annotations := s.annotations ++
              [Ann.blur sx sy ex ey s.currentColor s.strokeWidth
                (some (Snapshot.mk s.canvasW s.canvasH s.buffer))]
            buffer := applyBlurEffect s.canvasW s.canvasH s.strokeWidth
              (min sx ex) (min sy ey) (|ex - sx|) (|ey - sy|) s.buffer }
      else s
  | Tool.text => s
  | t =>
      { s with
          annotations := s.annotations ++
            [Ann.shape t sx sy ex ey s.currentColor s.strokeWidth] }

/-- ctx.putImageData(snap, 0, 0): the snapshot's pixels overwrite the
canvas over the snapshot's extent, clipped to the canvas. -/
def putImageData (W H : Nat) (snap : Snapshot) (buf : Buffer) : Buffer :=
  fun i j =>
    if i < min snap.width W ∧ j < min snap.height H then snap.data i j
    else buf i j

/-- undo of the refactored revision (app.js lines 808-822): nothing on
an empty store; otherwise, if the last annotation is a blur with a
backup, put the backup back at the origin, then pop and run a full
redrawCanvas (which repaints the whole canvas from the base image and
the remaining annotations). -/
def undo (R : Ann → Buffer → Buffer) (s : EditorState) : EditorState :=
  match s.annotations.getLast? with
  | none => s
  | some last =>
      let restored :=
        match last with
        | Ann.blur _ _ _ _ _ _ (some snap) => putImageData s.canvasW s.canvasH snap s.buffer
        | _ => s.buffer
      let anns := s.annotations.dropLast
      { s with
          annotations := anns
          buffer := redrawCanvas R s.canvasW s.canvasH s.baseImage anns s.strokeWidth restored }

/-- clearAnnotations (app.js lines 827-833): empty the store and
recomposite from the base image. -/
def clearAnnotations (R : Ann → Buffer → Buffer) (s : EditorState) : EditorState :=
  { s with
      annotations := []
      buffer := redrawCanvas R s.canvasW s.canvasH s.baseImage [] s.strokeWidth s.buffer }

/-- updateUndoButton (app.js lines 838-840) keeps the undo button
enabled exactly while the store is non-empty; this is the canUndo
query of the spec. -/
def canUndo (s : EditorState) : Bool :=
  !s.annotations.isEmpty

/-- submitTextModal of the refactored revision (app.js lines 954-973):
trim, sanitize, drop the commit when the result is empty, otherwise
push the text annotation (font size strokeWidth * 5) and redraw. -/
def submitTextModal (R : Ann → Buffer → Buffer) (s : EditorState) (x y : ℚ)
    (input : String) : EditorState :=
  let t := sanitizeInput input.trim
  if t = "" then s
  else
    let anns := s.annotations ++ [Ann.text x y t s.currentColor (s.strokeWidth * 5)]
    { s with
        annotations := anns
        buffer := redrawCanvas R s.canvasW s.canvasH s.baseImage anns s.strokeWidth s.buffer }

/-- The acceptance decision of finishAreaSelection (app.js lines
401-447): the drag's min/abs selection rectangle, rejected (none, no
image is loaded) when either side is under 10 px.  The accepted
rectangle is subsequently mapped through the overlay scale and cropped
by external canvas code. -/
def finishAreaSelection (startX startY endX endY : ℚ) : Option (ℚ × ℚ × ℚ × ℚ) :=
  let selectionWidth := |endX - startX|
  let selectionHeight := |endY - startY|
  if selectionWidth < 10 ∨ selectionHeight < 10 then none
  else some (min startX endX, min startY endY, selectionWidth, selectionHeight)

/-- The text content of the most recently committed annotation, when
that annotation is a text annotation. -/
def storedText (s : EditorState) : Option String :=
  s.annotations.getLast?.bind fun a =>
    match a with
    | Ann.text _ _ t _ _ => some t
    | _ => none

/-- Width and height of the snapshot carried by the most recently
committed annotation, when that annotation is a blur annotation with a
snapshot. -/
def snapshotDims (s : EditorState) : Option (Nat × Nat) :=
  s.annotations.getLast?.bind fun a =>
    match a with
    | Ann.blur _ _ _ _ _ _ (some sn) => some (sn.width, sn.height)
    | _ => none

namespace Rev2

/-- redrawCanvas of the second revision (app.js lines 1737-1775): same
clear / base / replay loop, except that the blur case is an explicit
no-op because the pixelation was already baked into baseImage by
applyBlurPermanently. -/
def redrawCanvas (R : Ann → Buffer → Buffer) (W H : Nat) (base : Buffer)
    (anns : List Ann) (old : Buffer) : Buffer :=
  anns.foldl
    (fun buf a =>
      match a with
      | Ann.blur _ _ _ _ _ _ _ => buf
      | _ => R a buf)
    (drawImage W H base (clearRect W H old))

/-- applyBlurPermanently (app.js lines 1663-1732), restricted to its
pixel effect on the canvas: min/abs rectangle from the two drag
corners, the same early-outs and clamping as applyBlurEffect, the same
block pixelation.  The source afterwards also copies the whole canvas
into state.baseImage (asynchronously), which is what makes the effect
permanent. -/
def applyBlurPermanently (W H strokeWidth : Nat) (x1 y1 x2 y2 : ℚ) (img : Buffer) : Buffer :=
  applyBlurEffect W H strokeWidth (min x1 x2) (min y1 y2) (|x2 - x1|) (|y2 - y1|) img

/-- submitTextModal of the second revision (app.js lines 1922-1941):
identical to the refactored one except that the trimmed input is stored
WITHOUT sanitization. -/
def submitTextModal (R : Ann → Buffer → Buffer) (s : EditorState) (x y : ℚ)
    (input : String) : EditorState :=
  let t := input.trim
  if t = "" then s
  else
    let anns := s.annotations ++ [Ann.text x y t s.currentColor (s.strokeWidth * 5)]
    { s with
        annotations := anns
        buffer := Rev2.redrawCanvas R s.canvasW s.canvasH s.baseImage anns s.buffer }

end Rev2

/-- A small concrete base image whose pixel at (i, j) records its own
coordinates, so that any relocation of pixel values is visible. -/
def demoBase : Buffer := fun i j => ⟨i, j, 0, 255⟩

/-- A concrete reachable state used by the failing-input theorems:
load a 16-by-16 image, commit a blur over (0,0)-(12,12) at stroke
width 10 (block size 20, so the whole rectangle takes the colour of
pixel (0,0)), then move the stroke-width slider to 3. -/
def blurScenarioBase : EditorState :=
  setStrokeWidth
    (stopDrawing
      (setStrokeWidth (selectTool (loadImageToEditor 16 16 demoBase) Tool.blur) 10)
      0 0 12 12)
    3

/-! ### Characterization of the block-pixelation loops -/

lemma len_le_ceil_mul (p len : Nat) (hp : 0 < p) : len ≤ (len + p - 1) / p * p := by
  cases len with
  | zero => simp
  | succ m =>
      have hq : (m + 1 + p - 1) / p = m / p + 1 := by
        have hmp : m + 1 + p - 1 = m + p := by omega
        rw [hmp, Nat.add_div_right _ hp]
      rw [hq]
      have h := Nat.div_add_mod m p
      have h2 : m % p < p := Nat.mod_lt _ hp
      have h3 : (m / p + 1) * p = p * (m / p) + p := by ring
      rw [h3]
      generalize p * (m / p) = t at h ⊢
      omega

lemma rowFoldAux (p sw sh py : Nat) (hp : 0 < p) (n : Nat) (img : Buffer) :
    ∀ i j,
      (((List.range n).map (fun k => k * p)).foldl
          (fun acc px => fillBlock p sw sh px py acc) img) i j
        = if i < min (n * p) sw ∧ py ≤ j ∧ j < min (py + p) sh then
            img (i / p * p) py
          else img i j := by
  induction n with
  | zero =>
      intro i j
      simp
  | succ n ih =>
      intro i j
      rw [List.range_succ, List.map_append, List.foldl_append]
      simp only [List.map_cons, List.map_nil, List.foldl_cons, List.foldl_nil]
      have hmid := ih (n * p) py
      rw [if_neg (by omega)] at hmid
      rw [fillBlock]
      simp only [hmid]
      have hsucc : (n + 1) * p = n * p + p := by ring
      by_cases hin : n * p ≤ i ∧ i < min (n * p + p) sw ∧ py ≤ j ∧ j < min (py + p) sh
      · rw [if_pos hin, if_pos (by omega)]
        have hdiv : i / p = n := by
          have h1 : n * p ≤ i := hin.1
          have h2 : i < (n + 1) * p := by omega
          exact Nat.div_eq_of_lt_le h1 h2
        rw [hdiv]
      · rw [if_neg hin, ih i j]
        by_cases hc : i < min (n * p) sw ∧ py ≤ j ∧ j < min (py + p) sh
        · rw [if_pos hc, if_pos (by omega)]
        · rw [if_neg hc, if_neg (by omega)]

lemma pixelateRow_char (p sw sh py : Nat) (hp : 0 < p) (img : Buffer) (i j : Nat) :
    pixelateRow p sw sh py img i j
      = if i < sw ∧ py ≤ j ∧ j < min (py + p) sh then img (i / p * p) py
        else img i j := by
  have hcov := len_le_ceil_mul p sw hp
  have h := rowFoldAux p sw sh py hp ((sw + p - 1) / p) img i j
  rw [pixelateRow, blockStarts, h]
  by_cases hc : i < sw ∧ py ≤ j ∧ j < min (py + p) sh
  · rw [if_pos (by omega), if_pos hc]
  · rw [if_neg (by omega), if_neg hc]

lemma colFoldAux (p sw sh : Nat) (hp : 0 < p) (n : Nat) (img : Buffer) :
    ∀ i j,
      (((List.range n).map (fun k => k * p)).foldl
          (fun acc py => pixelateRow p sw sh py acc) img) i j
        = if i < sw ∧ j < min (n * p) sh then img (i / p * p) (j / p * p)
          else img i j := by
  induction n with
  | zero =>
      intro i j
      simp
  | succ n ih =>
      intro i j
      rw [List.range_succ, List.map_append, List.foldl_append]
      simp only [List.map_cons, List.map_nil, List.foldl_cons, List.foldl_nil]
      rw [pixelateRow_char p sw sh (n * p) hp]
      have hmid := ih (i / p * p) (n * p)
      rw [if_neg (by omega)] at hmid
      have hsucc : (n + 1) * p = n * p + p := by ring
      by_cases hin : i < sw ∧ n * p ≤ j ∧ j < min (n * p + p) sh
      · rw [if_pos hin, hmid, if_pos (by omega)]
        have hdiv : j / p = n := by
          have h1 : n * p ≤ j := hin.2.1
          have h2 : j < (n + 1) * p := by omega
          exact Nat.div_eq_of_lt_le h1 h2
        rw [hdiv]
      · rw [if_neg hin, ih i j]
        by_cases hc : i < sw ∧ j < min (n * p) sh
        · rw [if_pos hc, if_pos (by omega)]
        · rw [if_neg hc, if_neg (by omega)]

/-- The double pixelation loop, pointwise: inside the region, pixel
(i, j) receives the value the region held at the top-left corner of the
p-by-p block containing (i, j); outside the region nothing changes. -/
lemma pixelateImage_char (p sw sh : Nat) (hp : 0 < p) (img : Buffer) (i j : Nat) :
    pixelateImage p sw sh img i j
      = if i < sw ∧ j < sh then img (i / p * p) (j / p * p) else img i j := by
  have hcov := len_le_ceil_mul p sh hp
  have h := colFoldAux p sw sh hp ((sh + p - 1) / p) img i j
  rw [pixelateImage, blockStarts, h]
  by_cases hc : i < sw ∧ j < sh
  · rw [if_pos (by omega), if_pos hc]
  · rw [if_neg (by omega), if_neg hc]

/-! ### Clamping lemmas for safeRect and applyBlurEffect -/

/-- On an already-clamped integer rectangle the clamping arithmetic is
the identity. -/
lemma safeRect_nat (W H x y w h : Nat) (hw : 1 ≤ w) (hh : 1 ≤ h)
    (hxw : x + w ≤ W) (hyh : y + h ≤ H) :
    safeRect W H (x : ℚ) (y : ℚ) (w : ℚ) (h : ℚ) = some (x, y, w, h) := by
  have hxW : (x : ℚ) ≤ (W : ℚ) - 1 := by
    have : (x : ℚ) + 1 ≤ (W : ℚ) := by exact_mod_cast by omega
    linarith
  have hyH : (y : ℚ) ≤ (H : ℚ) - 1 := by
    have : (y : ℚ) + 1 ≤ (H : ℚ) := by exact_mod_cast by omega
    linarith
  have hsx : max 0 ⌊min (x : ℚ) ((W : ℚ) - 1)⌋ = (x : ℤ) := by
    rw [min_eq_left hxW, Int.floor_natCast, max_eq_right (by positivity)]
  have hsy : max 0 ⌊min (y : ℚ) ((H : ℚ) - 1)⌋ = (y : ℤ) := by
    rw [min_eq_left hyH, Int.floor_natCast, max_eq_right (by positivity)]
  rw [safeRect]
  simp only [hsx, hsy]
  have hwW : (w : ℚ) ≤ (W : ℚ) - ((x : ℤ) : ℚ) := by
    push_cast
    have : (x : ℚ) + w ≤ (W : ℚ) := by exact_mod_cast hxw
    linarith
  have hhH : (h : ℚ) ≤ (H : ℚ) - ((y : ℤ) : ℚ) := by
    push_cast
    have : (y : ℚ) + h ≤ (H : ℚ) := by exact_mod_cast hyh
    linarith
  rw [min_eq_left hwW, min_eq_left hhH, Int.floor_natCast, Int.floor_natCast]
  rw [if_neg (by omega)]
  simp

/-- Whatever the request was, the clamped rectangle lies inside the
surface and has positive clipped size. -/
lemma safeRect_bounds (W H : Nat) (x y w h : ℚ) (sx sy sw sh : Nat)
    (hs : safeRect W H x y w h = some (sx, sy, sw, sh)) :
    sx + sw ≤ W ∧ sy + sh ≤ H ∧ 0 < sw ∧ 0 < sh := by
  rw [safeRect] at hs
  set sxI : ℤ := max 0 ⌊min x ((W : ℚ) - 1)⌋ with hsxI
  set syI : ℤ := max 0 ⌊min y ((H : ℚ) - 1)⌋ with hsyI
  set swI : ℤ := ⌊min w ((W : ℚ) - (sxI : ℚ))⌋ with hswI
  set shI : ℤ := ⌊min h ((H : ℚ) - (syI : ℚ))⌋ with hshI
  by_cases hc : swI < 1 ∨ shI < 1
  · rw [if_pos hc] at hs
    exact absurd hs (by simp)
  · rw [if_neg hc] at hs
    push_neg at hc
    simp only [Option.some.injEq, Prod.mk.injEq] at hs
    obtain ⟨h1, h2, h3, h4⟩ := hs
    have hsx0 : 0 ≤ sxI := le_max_left 0 _
    have hsy0 : 0 ≤ syI := le_max_left 0 _
    have hswW : swI ≤ (W : ℤ) - sxI := by
      have : min w ((W : ℚ) - (sxI : ℚ)) ≤ ((((W : ℤ) - sxI) : ℤ) : ℚ) := by
        push_cast
        exact min_le_right _ _
      calc swI ≤ ⌊((((W : ℤ) - sxI) : ℤ) : ℚ)⌋ := Int.floor_le_floor this
        _ = (W : ℤ) - sxI := Int.floor_intCast _
    have hshH : shI ≤ (H : ℤ) - syI := by
      have : min h ((H : ℚ) - (syI : ℚ)) ≤ ((((H : ℤ) - syI) : ℤ) : ℚ) := by
        push_cast
        exact min_le_right _ _
      calc shI ≤ ⌊((((H : ℤ) - syI) : ℤ) : ℚ)⌋ := Int.floor_le_floor this
        _ = (H : ℤ) - syI := Int.floor_intCast _
    omega

/-! ### Claim theorems -/

/-- C4: the pixelation filter, on a clamped rectangle (x, y, w, h) with
block size p = max(8, strokeWidth * 2), partitions the rectangle into
p-by-p blocks (the last row and column clipped to the rectangle) and
overwrites every pixel of each block with the RGBA value sampled at the
block's top-left corner; input with w < 1 or h < 1 is a no-op. -/
theorem c4_pixelation_blocks :
    (∀ (W H σ x y w h : Nat) (img : Buffer),
        1 ≤ w → 1 ≤ h → x + w ≤ W → y + h ≤ H →
        ∀ i j : Nat, i < w → j < h →
          applyBlurEffect W H σ (x : ℚ) (y : ℚ) (w : ℚ) (h : ℚ) img (x + i) (y + j)
            = img (x + i / max 8 (σ * 2) * max 8 (σ * 2))
                (y + j / max 8 (σ * 2) * max 8 (σ * 2)))
    ∧ (∀ (W H σ : Nat) (x y w h : ℚ) (img : Buffer),
        w < 1 ∨ h < 1 → applyBlurEffect W H σ x y w h img = img) := by
  constructor
  · intro W H σ x y w h img hw hh hxw hyh i j hi hj
    have hp : 0 < max 8 (σ * 2) := lt_of_lt_of_le (by norm_num) (le_max_left _ _)
    have hd : ¬((w : ℚ) < 1 ∨ (h : ℚ) < 1) := by
      push_neg
      constructor
      · exact_mod_cast hw
      · exact_mod_cast hh
    rw [applyBlurEffect, if_neg hd, safeRect_nat W H x y w h hw hh hxw hyh]
    show pixelateRect (max 8 (σ * 2)) x y w h img (x + i) (y + j) = _
    rw [pixelateRect]
    simp only
    rw [if_pos (by omega)]
    rw [Nat.add_sub_cancel_left, Nat.add_sub_cancel_left]
    rw [pixelateImage_char _ _ _ hp, if_pos ⟨hi, hj⟩]
    rfl
  · intro W H σ x y w h img hd
    rw [applyBlurEffect, if_pos hd]

/-- Witness for C4 at a concrete input: pixelating the rectangle
(2, 2, 4, 4) of a 16-by-16 surface with stroke width 4 (block size 8)
makes pixel (3, 3) take the value sampled at the block corner (2, 2). -/
theorem c4_pixelation_blocks_witness :
    (1 : Nat) ≤ 4 ∧ 2 + 4 ≤ 16
    ∧ applyBlurEffect 16 16 4 (2 : ℚ) 2 4 4 demoBase 3 3 = demoBase 2 2 := by
  refine ⟨by norm_num, by norm_num, ?_⟩
  simpa using
    c4_pixelation_blocks.1 16 16 4 2 2 4 4 demoBase (by norm_num) (by norm_num)
      (by norm_num) (by norm_num) 1 1 (by norm_num) (by norm_num)

/-- C7, amended: applyBlurEffect clamps the origin to
[0, W - 1] times [0, H - 1] and clips the size to what fits from the
clamped origin, so the affected rectangle always lies inside the
surface (pixels at or beyond the surface edge are untouched); it is a
no-op, not an error, when the raw extent is below 1 or when the clipped
size check fires.  The affected rectangle need not equal the
intersection of the requested rectangle with the surface, which is what
the counterexample shows. -/
theorem c7_clamped_rect_containment :
    ∀ (W H σ : Nat) (x y w h : ℚ) (img : Buffer),
      (∀ i j : Nat, W ≤ i ∨ H ≤ j → applyBlurEffect W H σ x y w h img i j = img i j)
      ∧ (w < 1 ∨ h < 1 → applyBlurEffect W H σ x y w h img = img)
      ∧ (safeRect W H x y w h = none → applyBlurEffect W H σ x y w h img = img) := by
  intro W H σ x y w h img
  refine ⟨?_, ?_, ?_⟩
  · intro i j hij
    by_cases hd : w < 1 ∨ h < 1
    · rw [applyBlurEffect, if_pos hd]
    · rw [applyBlurEffect, if_neg hd]
      rcases hsr : safeRect W H x y w h with _ | ⟨sx, sy, sw, sh⟩
      · rfl
      · obtain ⟨hW, hH, _, _⟩ := safeRect_bounds W H x y w h sx sy sw sh hsr
        show pixelateRect (max 8 (σ * 2)) sx sy sw sh img i j = img i j
        rw [pixelateRect]
        simp only
        rw [if_neg (by omega)]
  · intro hd
    rw [applyBlurEffect, if_pos hd]
  · intro hn
    by_cases hd : w < 1 ∨ h < 1
    · rw [applyBlurEffect, if_pos hd]
    · rw [applyBlurEffect, if_neg hd, hn]

/-- Witness for C7 at a concrete input: a pixel at column 20, beyond
the 16-pixel-wide surface, is untouched. -/
theorem c7_clamped_rect_containment_witness :
    ((16 : Nat) ≤ 20 ∨ (16 : Nat) ≤ 0)
    ∧ applyBlurEffect 16 16 4 2 2 4 4 demoBase 20 0 = demoBase 20 0 :=
  ⟨Or.inl (by norm_num),
    (c7_clamped_rect_containment 16 16 4 2 2 4 4 demoBase).1 20 0 (Or.inl (by norm_num))⟩

/-- Counterexample for C7 as stated: the requested rectangle
(x, y, w, h) = (-5, 0, 10, 5) on a 16-by-16 surface intersects the
surface only in columns 0 to 4, yet the operation changes pixel (9, 0)
(column 9 is outside the requested rectangle, whose right edge is
-5 + 10 = 5), because the clamp shifts the origin to 0 without
shrinking the 10-pixel extent.  So the operation does not affect
exactly the intersection of the request with the surface. -/
theorem c7_counterexample :
    applyBlurEffect 16 16 4 (-5) 0 10 5 demoBase 9 0 ≠ demoBase 9 0
    ∧ ¬ ((9 : ℚ) < -5 + 10) := by
  constructor
  · with_unfolding_all decide
  · norm_num

/-- C6: recompositing is idempotent — running redrawCanvas on the
result of redrawCanvas with the same base image, store and stroke
width yields the identical buffer.  The first thing redrawCanvas does
is clearRect over the whole canvas, so its output never depends on the
buffer it starts from. -/
theorem c6_recomposite_idempotent :
    ∀ (R : Ann → Buffer → Buffer) (W H : Nat) (base : Buffer) (anns : List Ann)
      (strokeWidth : Nat) (buf : Buffer),
      redrawCanvas R W H base anns strokeWidth (redrawCanvas R W H base anns strokeWidth buf)
        = redrawCanvas R W H base anns strokeWidth buf := by
  intro R W H base anns σ buf
  rfl

/-- C8: after clearAnnotations the store is empty, the buffer is
exactly the recomposite of the empty store over the current base image,
and canUndo is false. -/
theorem c8_clear_resets :
    ∀ (R : Ann → Buffer → Buffer) (s : EditorState),
      (clearAnnotations R s).annotations = []
      ∧ (clearAnnotations R s).buffer
          = redrawCanvas R s.canvasW s.canvasH s.baseImage [] s.strokeWidth s.buffer
      ∧ canUndo (clearAnnotations R s) = false := by
  intro R s
  exact ⟨rfl, rfl, rfl⟩

/-- C10: undo on an empty store is a no-op — it returns (no error) and
leaves the whole editor state, hence the store, the buffer and the
canUndo answer, unchanged. -/
theorem c10_undo_empty_noop :
    ∀ (R : Ann → Buffer → Buffer) (s : EditorState),
      s.annotations = [] → undo R s = s := by
  intro R s h
  rw [undo, h]
  rfl

/-- Witness for C10: undo right after loading an image. -/
theorem c10_undo_empty_noop_witness :
    (loadImageToEditor 16 16 demoBase).annotations = []
    ∧ undo idRenderer (loadImageToEditor 16 16 demoBase) = loadImageToEditor 16 16 demoBase :=
  ⟨rfl, c10_undo_empty_noop idRenderer (loadImageToEditor 16 16 demoBase) rfl⟩

/-- C1, failing input for the claim (the code is at fault here): start
from a loaded 16-by-16 image, commit a blur over (0,0)-(12,12) at
stroke width 10 (block size 20: the whole rectangle takes the colour of
pixel (0,0)), move the stroke-width slider to 3, then commit a second
blur over (13,13)-(16,16) and undo it.  Pixel (8,0) held (0,0,0,255)
before the commit but holds (8,0,0,255) after the undo, because the
redraw inside undo re-pixelates the remaining first blur through
applyBlurEffect, which reads the current state.strokeWidth (3, block
size 8) instead of the stroke width 10 stored in that annotation. -/
theorem c1_blur_undo_failing_input :
    (undo idRenderer (stopDrawing blurScenarioBase 13 13 16 16)).buffer 8 0
      = ⟨8, 0, 0, 255⟩
    ∧ blurScenarioBase.buffer 8 0 = ⟨0, 0, 0, 255⟩
    ∧ (undo idRenderer (stopDrawing blurScenarioBase 13 13 16 16)).buffer 8 0
      ≠ blurScenarioBase.buffer 8 0 := by
  refine ⟨?_, ?_, ?_⟩ <;> with_unfolding_all decide

/-- C5, failing input for the claim (the code is at fault here): in the
same scenario as for the blur claim — one committed blur at stroke
width 10, slider then moved to 3 — select the rectangle tool, commit a
rectangle drag and undo it immediately.  The store is restored, but the
buffer is not: undo recomposites and thereby re-pixelates the bystander
blur annotation with the current stroke width 3 instead of its stored
stroke width 10, so pixel (8,0) changes from (0,0,0,255) to
(8,0,0,255). -/
theorem c5_vector_undo_failing_input :
    (undo idRenderer
        (stopDrawing (selectTool blurScenarioBase Tool.rect) 13 13 15 15)).buffer 8 0
      = ⟨8, 0, 0, 255⟩
    ∧ (selectTool blurScenarioBase Tool.rect).buffer 8 0 = ⟨0, 0, 0, 255⟩
    ∧ (undo idRenderer
        (stopDrawing (selectTool blurScenarioBase Tool.rect) 13 13 15 15)).buffer 8 0
      ≠ (selectTool blurScenarioBase Tool.rect).buffer 8 0 := by
  refine ⟨?_, ?_, ?_⟩ <;> with_unfolding_all decide

/-- Counterexample for C2 as stated: committing a blur drag from (2,2)
to (6,6) on a 20-by-20 surface stores a snapshot of dimensions
20-by-20 (the whole canvas, captured by startDrawing), while the
annotation's clamped-to-surface draw rectangle is (2, 2, 4, 4); the
widths 20 and 4 differ, so the snapshot's rectangle does not equal the
clamped draw rectangle. -/
theorem c2_counterexample :
    snapshotDims (stopDrawing (selectTool (loadImageToEditor 20 20 demoBase) Tool.blur) 2 2 6 6)
      = some (20, 20)
    ∧ safeRect 20 20 (min (2 : ℚ) 6) (min (2 : ℚ) 6) (|(6 : ℚ) - 2|) (|(6 : ℚ) - 2|)
      = some (2, 2, 4, 4)
    ∧ ((20, 20) : Nat × Nat) ≠ (4, 4) := by
  refine ⟨?_, ?_, ?_⟩ <;> with_unfolding_all decide

/-- C2, amended: every blur annotation committed by the refactored
revision carries a snapshot — but of the ENTIRE canvas (dimensions
canvasWidth by canvasHeight, pixel data equal to the pre-commit
buffer), captured before that annotation's pixelation is applied (the
new buffer is the pixelation of the very buffer stored in the
snapshot), not a snapshot restricted to the annotation's clamped draw
rectangle. -/
theorem c2_snapshot_is_full_canvas :
    ∀ (s : EditorState) (sx sy ex ey : ℚ),
      s.currentTool = Tool.blur → 1 < |ex - sx| → 1 < |ey - sy| →
      (stopDrawing s sx sy ex ey).annotations
        = s.annotations ++
            [Ann.blur sx sy ex ey s.currentColor s.strokeWidth
              (some (Snapshot.mk s.canvasW s.canvasH s.buffer))]
      ∧ (stopDrawing s sx sy ex ey).buffer
          = applyBlurEffect s.canvasW s.canvasH s.strokeWidth (min sx ex) (min sy ey)
              (|ex - sx|) (|ey - sy|) s.buffer := by
  intro s sx sy ex ey ht hw hh
  unfold stopDrawing
  rw [ht, if_pos ⟨hw, hh⟩]
  exact ⟨rfl, rfl⟩

/-- Witness for the amended C2 at a concrete blur commit. -/
theorem c2_snapshot_is_full_canvas_witness :
    (selectTool (loadImageToEditor 20 20 demoBase) Tool.blur).currentTool = Tool.blur
    ∧ (1 : ℚ) < |(6 : ℚ) - 2|
    ∧ (stopDrawing (selectTool (loadImageToEditor 20 20 demoBase) Tool.blur) 2 2 6 6).annotations
        = (selectTool (loadImageToEditor 20 20 demoBase) Tool.blur).annotations ++
            [Ann.blur 2 2 6 6
              (selectTool (loadImageToEditor 20 20 demoBase) Tool.blur).currentColor
              (selectTool (loadImageToEditor 20 20 demoBase) Tool.blur).strokeWidth
              (some (Snapshot.mk
                (selectTool (loadImageToEditor 20 20 demoBase) Tool.blur).canvasW
                (selectTool (loadImageToEditor 20 20 demoBase) Tool.blur).canvasH
                (selectTool (loadImageToEditor 20 20 demoBase) Tool.blur).buffer))] :=
  ⟨rfl, by norm_num,
    (c2_snapshot_is_full_canvas (selectTool (loadImageToEditor 20 20 demoBase) Tool.blur)
        2 2 6 6 rfl (by norm_num) (by norm_num)).1⟩

/-- Counterexample for C3 as stated: with the rectangle tool, a drag of
zero displacement — start and end both (5,5), so its draw rectangle has
zero area — still appends an annotation to the store (the store grows
from 0 to 1 entries), so commits with degenerate rectangles are NOT
dropped for every tool. -/
theorem c3_counterexample :
    (stopDrawing (selectTool (loadImageToEditor 16 16 demoBase) Tool.rect) 5 5 5 5).annotations.length = 1
    ∧ (loadImageToEditor 16 16 demoBase).annotations.length = 0
    ∧ |(5 : ℚ) - 5| < 1 := by
  refine ⟨?_, ?_, ?_⟩
  · with_unfolding_all decide
  · rfl
  · norm_num

/-- C3, amended: only the blur commit is gated on drag size — a blur
drag is appended exactly when both |endX - startX| > 1 and
|endY - startY| > 1 and is silently dropped (state unchanged, no error)
otherwise; commits of the vector tools (arrow, rect, circle, highlight)
append unconditionally, even for zero displacement; the area-selection
gesture is rejected exactly when |endX - startX| < 10 or
|endY - startY| < 10. -/
theorem c3_degenerate_commit_rules :
    ∀ (s : EditorState) (sx sy ex ey : ℚ),
      (s.currentTool = Tool.blur → ¬(1 < |ex - sx| ∧ 1 < |ey - sy|) →
        stopDrawing s sx sy ex ey = s)
      ∧ (s.currentTool = Tool.blur → 1 < |ex - sx| → 1 < |ey - sy| →
        (stopDrawing s sx sy ex ey).annotations.length = s.annotations.length + 1)
      ∧ ((s.currentTool = Tool.arrow ∨ s.currentTool = Tool.rect
          ∨ s.currentTool = Tool.circle ∨ s.currentTool = Tool.highlight) →
        (stopDrawing s sx sy ex ey).annotations.length = s.annotations.length + 1)
      ∧ (finishAreaSelection sx sy ex ey = none ↔ |ex - sx| < 10 ∨ |ey - sy| < 10) := by
  intro s sx sy ex ey
  refine ⟨?_, ?_, ?_, ?_⟩
  · intro ht hn
    unfold stopDrawing
    rw [ht, if_neg hn]
  · intro ht hw hh
    unfold stopDrawing
    rw [ht, if_pos ⟨hw, hh⟩]
    simp
  · intro ht
    rcases ht with h | h | h | h <;>
      (unfold stopDrawing; rw [h]; simp)
  · unfold finishAreaSelection
    by_cases hcond : |ex - sx| < 10 ∨ |ey - sy| < 10
    · rw [if_pos hcond]
      simp [hcond]
    · rw [if_neg hcond]
      simp [hcond]

/-- Witness for the amended C3: a degenerate blur drag leaves the state
unchanged. -/
theorem c3_degenerate_commit_rules_witness :
    (selectTool (loadImageToEditor 16 16 demoBase) Tool.blur).currentTool = Tool.blur
    ∧ ¬(1 < |(5 : ℚ) - 5| ∧ 1 < |(5 : ℚ) - 5|)
    ∧ stopDrawing (selectTool (loadImageToEditor 16 16 demoBase) Tool.blur) 5 5 5 5
        = selectTool (loadImageToEditor 16 16 demoBase) Tool.blur :=
  ⟨rfl, by norm_num,
    (c3_degenerate_commit_rules (selectTool (loadImageToEditor 16 16 demoBase) Tool.blur)
        5 5 5 5).1 rfl (by norm_num)⟩

/-- Counterexample for C9 as stated: the second revision's
submitTextModal stores the raw trimmed input — committing the
HTML-bearing string lt b gt hi lt slash b gt stores it verbatim, and it
differs from its sanitized form, so raw untrusted HTML-bearing text IS
stored by this code path. -/
theorem c9_counterexample :
    storedText
        (Rev2.submitTextModal idRenderer (loadImageToEditor 16 16 demoBase) 1 2 ("<b>hi</b>"))
      = some ("<b>hi</b>")
    ∧ ("<b>hi</b>") ≠ sanitizeInput ("<b>hi</b>") := by
  refine ⟨?_, ?_⟩ <;> with_unfolding_all decide

/-- C9, amended: in the refactored revision the committed text content
is the sanitized (markup-escaped) form of the TRIMMED input, and a
sanitized string never contains a raw lt or gt character; in the second
revision the raw trimmed input is stored without sanitization, so
HTML-bearing text can reach the store there. -/
theorem c9_text_storage_amended :
    ∀ (R : Ann → Buffer → Buffer) (s : EditorState) (x y : ℚ) (input : String),
      (sanitizeInput input.trim ≠ "" →
        (submitTextModal R s x y input).annotations
          = s.annotations ++
              [Ann.text x y (sanitizeInput input.trim) s.currentColor (s.strokeWidth * 5)])
      ∧ (∀ c : Char, c ∈ (sanitizeInput input).toList → c ≠ '<' ∧ c ≠ '>')
      ∧ (input.trim ≠ "" →
        (Rev2.submitTextModal R s x y input).annotations
          = s.annotations ++ [Ann.text x y input.trim s.currentColor (s.strokeWidth * 5)]) := by
  intro R s x y input
  refine ⟨?_, ?_, ?_⟩
  · intro h
    unfold submitTextModal
    rw [if_neg h]
  · intro c hc
    have hc' : c ∈ input.toList.flatMap escapeCharL := hc
    rw [List.mem_flatMap] at hc'
    obtain ⟨d, _, hcd⟩ := hc'
    unfold escapeCharL at hcd
    split_ifs at hcd with h1 h2 h3
    · exact (by decide : ∀ x ∈ ("&amp;").toList, x ≠ '<' ∧ x ≠ '>') c hcd
    · exact (by decide : ∀ x ∈ ("&lt;").toList, x ≠ '<' ∧ x ≠ '>') c hcd
    · exact (by decide : ∀ x ∈ ("&gt;").toList, x ≠ '<' ∧ x ≠ '>') c hcd
    · simp only [List.mem_singleton] at hcd
      subst hcd
      exact ⟨h2, h3⟩
  · intro h
    unfold Rev2.submitTextModal
    rw [if_neg h]

/-- Witness for the amended C9 at a concrete input with surrounding
whitespace and markup. -/
theorem c9_text_storage_amended_witness :
    sanitizeInput (" <i> ").trim ≠ ""
    ∧ (submitTextModal idRenderer (loadImageToEditor 16 16 demoBase) 1 2 (" <i> ")).annotations
        = (loadImageToEditor 16 16 demoBase).annotations ++
            [Ann.text 1 2 (sanitizeInput (" <i> ").trim)
              (loadImageToEditor 16 16 demoBase).currentColor
              ((loadImageToEditor 16 16 demoBase).strokeWidth * 5)] :=
  ⟨by with_unfolding_all decide,
    (c9_text_storage_amended idRenderer (loadImageToEditor 16 16 demoBase) 1 2 (" <i> ")).1
      (by with_unfolding_all decide)⟩
